import Mathlib

/-!
Verification development for the Insteon local hub buffer protocol engine
(`insteon/local.py`).  The hex buffers handled by `LocalHub` are modelled as
`List Char`; the Python parser, command encoder and subscribe-loop
deduplication logic are embedded as executable Lean functions below, and the
behavioural claims about them are settled as theorems.
-/

set_option maxRecDepth 8000

namespace Insteon

/-- View a string literal as the character-list representation used throughout
the model. -/
def chars (s : String) : List Char := s.toList

/-- ASCII lower-casing of one character, as Python `str.lower` acts on the
marker/hex characters appearing in hub commands. -/
def lowerChar (c : Char) : Char :=
  if 'A' ≤ c ∧ c ≤ 'Z' then Char.ofNat (c.toNat + 32) else c

/-- Python `str.lower` over a whole string. -/
def lowerStr (s : List Char) : List Char := s.map lowerChar

/-- The value of a single hexadecimal digit; `none` when the character is not a
hex digit (where Python `int(_, 16)` raises `ValueError`). -/
def hexDigitVal (c : Char) : Option Nat :=
  if '0' ≤ c ∧ c ≤ '9' then some (c.toNat - '0'.toNat)
  else if 'a' ≤ c ∧ c ≤ 'f' then some (c.toNat - 'a'.toNat + 10)
  else if 'A' ≤ c ∧ c ≤ 'F' then some (c.toNat - 'A'.toNat + 10)
  else none

def hexValGo : List Char → Nat → Option Nat
  | [], acc => some acc
  | c :: r, acc =>
    match hexDigitVal c with
    | some d => hexValGo r (16 * acc + d)
    | none => none

/-- Python `int(s, 16)` on the command fields of `_parse_msg`: the numeric
value when every character is a hex digit, `none` (a `ValueError`) otherwise;
the empty string is also an error. -/
def hexVal : List Char → Option Nat
  | [] => none
  | c :: r =>
    match hexDigitVal c with
    | some d => hexValGo r d
    | none => none

/-- The `command` tag of an Ack record: `_cmd1` mapped by `_parse_ack`
(lines 109-117 of `local.py`). -/
inductive Cmd
  | status_request
  | on
  | off
  | unknown (cmd1 cmd2 : List Char)
  deriving DecidableEq

/-- The `status` field of a Message record: `int(_cmd2, 16)` for the known
command codes, otherwise the opaque `unknown[cmd1::cmd2]` string. -/
inductive Status
  | val (n : Nat)
  | unknown (cmd1 cmd2 : List Char)
  deriving DecidableEq

/-- The `type` field of a Message record (lines 146-153 of `local.py`). -/
inductive MType
  | status
  | on
  | off
  | other (cmd1 : List Char)
  deriving DecidableEq

/-- A Message record as built by `_parse_msg` (lines 154-160). -/
structure Msg where
  from_ : List Char
  to_ : List Char
  flags : List Char
  status : Status
  type : MType
  deriving DecidableEq

/-- An Ack record as built by `_parse_ack` (lines 118-123). -/
structure Ack where
  device : List Char
  flags : List Char
  command : Cmd
  response : List Msg
  deriving DecidableEq

/-- The six fixed-width slices `_parse_ack` reads from the head of the buffer
(lines 97-102 of `local.py`). -/
structure AckReads where
  pass_through : List Char
  id : List Char
  flags : List Char
  cmd1 : List Char
  cmd2 : List Char
  ack : List Char
  deriving DecidableEq

def ackReads (buff : List Char) : AckReads :=
  { pass_through := buff.take 4
    id := (buff.drop 4).take 6
    flags := (buff.drop 10).take 2
    cmd1 := (buff.drop 12).take 2
    cmd2 := (buff.drop 14).take 2
    ack := (buff.drop 16).take 2 }

/-- The `command` tag computed by `_parse_ack` from `_cmd1` and `_cmd2`
(lines 109-117). -/
def ackCommand (cmd1 cmd2 : List Char) : Cmd :=
  if cmd1 = chars ("19") then Cmd.status_request
  else if cmd1 = chars ("11") then Cmd.on
  else if cmd1 = chars ("13") then Cmd.off
  else Cmd.unknown cmd1 cmd2

/-- `LocalHub._parse_ack` (lines 96-124): `none` models a raised
`BufferParsingError`; on success the Ack record and the remaining buffer
(`buff[18:]`) are returned. -/
def parseAck (buff : List Char) : Option (Ack × List Char) :=
  if (ackReads buff).pass_through = chars ("0262") ∧ (ackReads buff).ack = chars ("06") then
    some ({ device := (ackReads buff).id, flags := (ackReads buff).flags,
            command := ackCommand (ackReads buff).cmd1 (ackReads buff).cmd2,
            response := [] },
      buff.drop 18)
  else none

/-- How one run of the inner `while True` message loop in `parse`
(lines 85-93) ends: with a `BufferParsingError` (bad message flag), with a
`BufferExhausted` (no character at index 22), or with an uncaught
`ValueError` from `int(_, 16)`. -/
inductive InnerExit
  | parseErr
  | exhausted
  | valErr
  deriving DecidableEq

/-- The `status` field computed by `_parse_msg` (lines 142-145): the integer
value of `_cmd2` for the recognized command codes (where `int(_, 16)` may
raise, modelled by `none`), the opaque tag otherwise. -/
def msgStatus (cmd1 cmd2 : List Char) : Option Status :=
  if cmd1 = chars ("11") ∨ cmd1 = chars ("13") ∨ cmd1 = chars ("19") then
    (hexVal cmd2).map Status.val
  else some (Status.unknown cmd1 cmd2)

/-- The `type` field computed by `_parse_msg` from `_cmd1` (lines 146-153). -/
def msgType (cmd1 : List Char) : MType :=
  if cmd1 = chars ("19") then MType.status
  else if cmd1 = chars ("11") then MType.on
  else if cmd1 = chars ("13") then MType.off
  else MType.other cmd1

/-- The Message record `_parse_msg` builds from the fixed-width slices of the
buffer (lines 131-136 and 154-160). -/
def mkMsg (buff : List Char) (st : Status) : Msg :=
  { from_ := (buff.drop 4).take 6
    to_ := (buff.drop 10).take 6
    flags := (buff.drop 16).take 2
    status := st
    type := msgType ((buff.drop 18).take 2) }

/-- The inner message loop of `parse`: repeatedly run `_parse_msg`
(lines 126-161) and collect the messages, returning the accumulated messages,
the buffer at the point of failure, and the kind of exit.  The `fuel`
argument makes the recursion structural; `_parse_msg` consumes 20 characters
per message (`buff[20:]`, line 141 — even though it reads 22), so fuel equal
to the buffer length always suffices. -/
def parseMsgsF : Nat → List Char → List Msg × List Char × InnerExit
  | 0, buff => ([], buff, InnerExit.exhausted)
  | fuel + 1, buff =>
    if buff.length < 23 then ([], buff, InnerExit.exhausted)
    else if buff.take 4 ≠ chars ("0250") then ([], buff, InnerExit.parseErr)
    else
      match msgStatus ((buff.drop 18).take 2) ((buff.drop 20).take 2) with
      | none => ([], buff, InnerExit.valErr)
      | some st =>
        match parseMsgsF fuel (buff.drop 20) with
        | (ms, r, e) => (mkMsg buff st :: ms, r, e)

def parseMsgs (buff : List Char) : List Msg × List Char × InnerExit :=
  parseMsgsF buff.length buff

/-- Does the buffer begin with the pass-through marker `0262`? -/
def hasSyncMark : List Char → Bool
  | '0' :: '2' :: '6' :: '2' :: _ => true
  | _ => false

/-- The resynchronization step of `parse` (lines 78-80):
`_, delim, buff = buff.partition('0262'); buff = delim + buff` — the suffix of
the buffer from the first occurrence of `0262`, or the empty buffer when the
marker does not occur. -/
def resync : List Char → List Char
  | [] => []
  | c :: rest => if hasSyncMark (c :: rest) then c :: rest else resync rest

/-- How a run of `parse` can fail to produce a value: an uncaught `ValueError`
escaping from `int(_, 16)`, or (a modelling artefact, provably unreachable)
running out of loop fuel. -/
inductive PErr
  | valueError
  | outOfFuel
  deriving DecidableEq

/-- The outer `while buff` loop of `LocalHub.parse` (lines 71-94), with fuel
counting loop iterations.  On a `BufferParsingError` from `_parse_ack` the
buffer is resynchronized (and parsing stops when that makes no progress); on
success the inner message loop runs: a `BufferParsingError` exit finalizes the
Ack into the output, a `BufferExhausted` exit silently continues the outer
loop without appending the Ack (lines 92-93), and a `ValueError` escapes. -/
def parseGo : Nat → List Char → List Ack → Except PErr (List Ack)
  | _, [], acc => Except.ok acc.reverse
  | 0, _ :: _, _ => Except.error PErr.outOfFuel
  | fuel + 1, c :: rest, acc =>
    match parseAck (c :: rest) with
    | none =>
      if resync (c :: rest) = c :: rest then Except.ok acc.reverse
      else parseGo fuel (resync (c :: rest)) acc
    | some (ack, rest1) =>
      match parseMsgs rest1 with
      | (msgs, rest2, InnerExit.parseErr) =>
        parseGo fuel rest2 ({ ack with response := msgs } :: acc)
      | (_, rest2, InnerExit.exhausted) => parseGo fuel rest2 acc
      | (_, _, InnerExit.valErr) => Except.error PErr.valueError

/-- `LocalHub.parse`: run the loop with enough fuel for any buffer. -/
def parse (buff : List Char) : Except PErr (List Ack) :=
  parseGo (buff.length + 1) buff []

/-- Uppercase hex digit, as produced by `hex(_).upper()`. -/
def hexDigitUpper (n : Nat) : Char :=
  if n < 10 then Char.ofNat ('0'.toNat + n) else Char.ofNat ('A'.toNat + (n - 10))

def toHexAux : Nat → Nat → List Char → List Char
  | 0, _, acc => acc
  | _ + 1, 0, acc => acc
  | fuel + 1, n + 1, acc =>
    toHexAux fuel ((n + 1) / 16) (hexDigitUpper ((n + 1) % 16) :: acc)

/-- Python `hex(level).replace('0x', '').upper()` (line 62 of `local.py`):
uppercase hex digits with no zero-padding, and the single digit `0` for 0. -/
def toHexUpper (n : Nat) : List Char :=
  if n = 0 then chars ("0") else toHexAux n n []

/-- The cmd2 field produced by `LocalHub.device_on` for a given level. -/
def device_on_cmd2 (level : Nat) : List Char := toHexUpper level

/-- `LocalHub._command` (lines 54-56): the encoded command hex string
`('0262' + device_id + flags + cmd1 + cmd2).lower()`. -/
def commandMsg (device_id cmd1 cmd2 flags : List Char) : List Char :=
  lowerStr (chars ("0262") ++ device_id ++ flags ++ cmd1 ++ cmd2)

/-- The full command string sent by `LocalHub.device_on` (lines 61-63). -/
def device_on_msg (device_id : List Char) (level : Nat) : List Char :=
  commandMsg device_id (chars ("11")) (device_on_cmd2 level) (chars ("0F"))

/-- Lookup in the `recent_msgs` table of `subscribe`; the table is modelled as
an association list where the most recent binding for a key comes first. -/
def lookupT (recent : List (Ack × Int)) (a : Ack) : Option Int :=
  match recent with
  | [] => none
  | (k, v) :: r => if k = a then some v else lookupT r a

/-- The per-event logic of `LocalHub.subscribe` (lines 167-173) over a
sequence of observations `(now, event)`: fire the callback when the
fingerprint is unseen or was last seen more than `status_ttl` ago, and
unconditionally refresh the fingerprint's last-seen time.  Returns the list
of events delivered to the callback and the final last-seen table.  Note the
events iterated over are the Ack records returned by `poll` (line 167). -/
def subscribeCycle (status_ttl : Int) :
    List (Int × Ack) → List (Ack × Int) → List Ack × List (Ack × Int)
  | [], recent => ([], recent)
  | (now, a) :: rest, recent =>
    let fire : Bool :=
      match lookupT recent a with
      | none => true
      | some last => decide (status_ttl < now - last)
    let res := subscribeCycle status_ttl rest ((a, now) :: recent)
    (if fire then a :: res.1 else res.1, res.2)

/-- A sample Ack record (device `AABBCC`, command `on`, no responses) used to
instantiate the subscribe-loop theorems at a concrete event. -/
def sampleAck : Ack :=
  { device := chars ("AABBCC"), flags := chars ("0F"), command := Cmd.on,
    response := [] }

/-- A value passed to the subscriber callback: under the claim it would be a
Message record, under the code it is an Ack record. -/
inductive Event
  | ackEvt (a : Ack)
  | msgEvt (m : Msg)
  deriving DecidableEq

/-- The Ack records produced by a successful parse (empty on an uncaught
error). -/
def parsedAcks (buff : List Char) : List Ack :=
  match parse buff with
  | Except.ok l => l
  | Except.error _ => []

/-- The events a first subscribe cycle (empty `recent_msgs` table) delivers to
the callback for a polled buffer, observed at the given times. -/
def deliveredFirstCycle (status_ttl : Int) (times : List Int) (buff : List Char) :
    List Event :=
  (subscribeCycle status_ttl (times.zip (parsedAcks buff)) []).1.map Event.ackEvt

/-- The event sequence the claim predicts for one cycle: all `Ack.response`
lists flattened into one ordered sequence of Message events. -/
def flattenedMessages (buff : List Char) : List Event :=
  (((parsedAcks buff).map Ack.response).flatten).map Event.msgEvt

end Insteon

namespace Insteon

theorem resync_length_le (s : List Char) : (resync s).length ≤ s.length := by
  induction s with
  | nil => simp [resync]
  | cons c r ih =>
    rw [resync]
    split
    · exact Nat.le_refl _
    · exact Nat.le_trans ih (Nat.le_succ _)

theorem resync_ne_lt (c : Char) (r : List Char) (h : resync (c :: r) ≠ c :: r) :
    (resync (c :: r)).length < (c :: r).length := by
  by_cases hm : hasSyncMark (c :: r) = true
  · exact absurd (by rw [resync, if_pos hm]) h
  · rw [resync, if_neg hm]
    exact Nat.lt_succ_of_le (resync_length_le r)

theorem resync_subset (s : List Char) : resync s ⊆ s := by
  induction s with
  | nil => simp [resync]
  | cons c r ih =>
    rw [resync]
    split
    · exact fun x hx => hx
    · exact fun x hx => List.mem_cons_of_mem _ (ih hx)

theorem parseAck_some (buff : List Char) (a : Ack) (r : List Char)
    (h : parseAck buff = some (a, r)) : 18 ≤ buff.length ∧ r = buff.drop 18 := by
  unfold parseAck at h
  split at h
  · next hc =>
    have hlen : ((ackReads buff).ack).length = 2 := by rw [hc.2]; rfl
    simp only [ackReads, List.length_take, List.length_drop] at hlen
    refine ⟨by omega, ?_⟩
    simp only [Option.some.injEq, Prod.mk.injEq] at h
    exact h.2.symm
  · exact absurd h (by simp)

theorem parseMsgsF_length (fuel : Nat) :
    ∀ b : List Char, ((parseMsgsF fuel b).2.1).length ≤ b.length := by
  induction fuel with
  | zero => intro b; simp [parseMsgsF]
  | succ f ih =>
    intro b
    rw [parseMsgsF]
    split
    · exact Nat.le_refl _
    · split
      · exact Nat.le_refl _
      · split
        · exact Nat.le_refl _
        · next st heq =>
          split
          · next ms r e hres =>
            have := ih (b.drop 20)
            rw [hres] at this
            refine Nat.le_trans this ?_
            rw [List.length_drop]
            exact Nat.sub_le _ _

theorem parseMsgsF_subset (fuel : Nat) :
    ∀ b : List Char, (parseMsgsF fuel b).2.1 ⊆ b := by
  induction fuel with
  | zero => intro b; simp [parseMsgsF]
  | succ f ih =>
    intro b
    rw [parseMsgsF]
    split
    · exact fun x hx => hx
    · split
      · exact fun x hx => hx
      · split
        · exact fun x hx => hx
        · next st heq =>
          split
          · next ms r e hres =>
            have := ih (b.drop 20)
            rw [hres] at this
            exact fun x hx => List.drop_subset 20 b (this hx)

theorem hexValGo_isSome (l : List Char) :
    ∀ acc : Nat, (∀ c ∈ l, (hexDigitVal c).isSome = true) →
      (hexValGo l acc).isSome = true := by
  induction l with
  | nil => intro acc _; rfl
  | cons c r ih =>
    intro acc h
    have hc := h c (List.mem_cons_self c r)
    cases hd : hexDigitVal c with
    | none => rw [hd] at hc; simp at hc
    | some d =>
      rw [hexValGo, hd]
      exact ih _ fun x hx => h x (List.mem_cons_of_mem _ hx)

theorem hexVal_isSome (l : List Char) (hne : l ≠ [])
    (h : ∀ c ∈ l, (hexDigitVal c).isSome = true) : (hexVal l).isSome = true := by
  cases l with
  | nil => exact absurd rfl hne
  | cons c r =>
    have hc := h c (List.mem_cons_self c r)
    cases hd : hexDigitVal c with
    | none => rw [hd] at hc; simp at hc
    | some d =>
      rw [hexVal, hd]
      exact hexValGo_isSome r d fun x hx => h x (List.mem_cons_of_mem _ hx)

theorem parseMsgsF_no_valErr (fuel : Nat) :
    ∀ b : List Char, (∀ c ∈ b, (hexDigitVal c).isSome = true) →
      (parseMsgsF fuel b).2.2 ≠ InnerExit.valErr := by
  induction fuel with
  | zero => intro b _; simp [parseMsgsF]
  | succ f ih =>
    intro b hb
    rw [parseMsgsF]
    split
    · simp
    · next h23 =>
      split
      · simp
      · split
        · next hnone =>
          exfalso
          have hlen : ((b.drop 20).take 2).length = 2 := by
            rw [List.length_take, List.length_drop]
            omega
          have hne : (b.drop 20).take 2 ≠ [] := by
            intro he
            rw [he] at hlen
            exact absurd hlen (by simp)
          have hhex : ∀ c ∈ (b.drop 20).take 2, (hexDigitVal c).isSome = true :=
            fun c hc => hb c (List.drop_subset 20 b (List.take_subset 2 _ hc))
          have := hexVal_isSome _ hne hhex
          unfold msgStatus at hnone
          split at hnone
          · cases hv : hexVal ((b.drop 20).take 2) with
            | none => rw [hv] at this; exact absurd this (by simp)
            | some n => rw [hv] at hnone; exact absurd hnone (by simp)
          · exact absurd hnone (by simp)
        · next st heq =>
          split
          · next ms r e hres =>
            have := ih (b.drop 20) fun c hc => hb c (List.drop_subset 20 b hc)
            rw [hres] at this
            exact this

theorem parseMsgs_length (b : List Char) : ((parseMsgs b).2.1).length ≤ b.length :=
  parseMsgsF_length b.length b

theorem parseGo_congr (n : Nat) :
    ∀ (buff : List Char) (f g : Nat) (acc : List Ack), buff.length ≤ n →
      buff.length < f → buff.length < g → parseGo f buff acc = parseGo g buff acc := by
  induction n with
  | zero =>
    intro buff f g acc hn _ _
    have hb : buff = [] := List.length_eq_zero.mp (Nat.le_zero.mp hn)
    subst hb
    cases f <;> cases g <;> rfl
  | succ n ih =>
    intro buff f g acc hn hf hg
    cases buff with
    | nil => cases f <;> cases g <;> rfl
    | cons c rest =>
      obtain ⟨f', rfl⟩ : ∃ f', f = f' + 1 := ⟨f - 1, by omega⟩
      obtain ⟨g', rfl⟩ : ∃ g', g = g' + 1 := ⟨g - 1, by omega⟩
      have hlc : (c :: rest).length = rest.length + 1 := rfl
      rw [parseGo]
      rw [parseGo]
      cases hA : parseAck (c :: rest) with
      | none =>
        simp only
        by_cases hb : resync (c :: rest) = c :: rest
        · rw [if_pos hb, if_pos hb]
        · rw [if_neg hb, if_neg hb]
          have hlt := resync_ne_lt c rest hb
          exact ih _ _ _ _ (by omega) (by omega) (by omega)
      | some p =>
        obtain ⟨ack, rest1⟩ := p
        have hr := parseAck_some _ _ _ hA
        have hlen1 : rest1.length = (c :: rest).length - 18 := by
          rw [hr.2, List.length_drop]
        simp only
        rcases hm : parseMsgs rest1 with ⟨ms, rest2, e⟩
        have hlen2 : rest2.length ≤ rest1.length := by
          have := parseMsgs_length rest1
          rw [hm] at this
          exact this
        cases e with
        | parseErr => exact ih _ _ _ _ (by omega) (by omega) (by omega)
        | exhausted => exact ih _ _ _ _ (by omega) (by omega) (by omega)
        | valErr => rfl

theorem parseGo_no_outOfFuel (n : Nat) :
    ∀ (buff : List Char) (f : Nat) (acc : List Ack), buff.length ≤ n →
      buff.length < f → parseGo f buff acc ≠ Except.error PErr.outOfFuel := by
  induction n with
  | zero =>
    intro buff f acc hn hf
    have hb : buff = [] := List.length_eq_zero.mp (Nat.le_zero.mp hn)
    subst hb
    cases f <;> simp [parseGo]
  | succ n ih =>
    intro buff f acc hn hf
    cases buff with
    | nil => cases f <;> simp [parseGo]
    | cons c rest =>
      obtain ⟨f', rfl⟩ : ∃ f', f = f' + 1 := ⟨f - 1, by omega⟩
      have hlc : (c :: rest).length = rest.length + 1 := rfl
      rw [parseGo]
      cases hA : parseAck (c :: rest) with
      | none =>
        simp only
        by_cases hb : resync (c :: rest) = c :: rest
        · rw [if_pos hb]; simp
        · rw [if_neg hb]
          have hlt := resync_ne_lt c rest hb
          exact ih _ _ _ (by omega) (by omega)
      | some p =>
        obtain ⟨ack, rest1⟩ := p
        have hr := parseAck_some _ _ _ hA
        have hlen1 : rest1.length = (c :: rest).length - 18 := by
          rw [hr.2, List.length_drop]
        simp only
        rcases hm : parseMsgs rest1 with ⟨ms, rest2, e⟩
        have hlen2 : rest2.length ≤ rest1.length := by
          have := parseMsgs_length rest1
          rw [hm] at this
          exact this
        cases e with
        | parseErr => exact ih _ _ _ (by omega) (by omega)
        | exhausted => exact ih _ _ _ (by omega) (by omega)
        | valErr => simp

theorem parseGo_no_valueError_of_hex (n : Nat) :
    ∀ (buff : List Char) (f : Nat) (acc : List Ack), buff.length ≤ n →
      (∀ c ∈ buff, (hexDigitVal c).isSome = true) →
      parseGo f buff acc ≠ Except.error PErr.valueError := by
  induction n with
  | zero =>
    intro buff f acc hn _
    have hb : buff = [] := List.length_eq_zero.mp (Nat.le_zero.mp hn)
    subst hb
    cases f <;> simp [parseGo]
  | succ n ih =>
    intro buff f acc hn hh
    cases buff with
    | nil => cases f <;> simp [parseGo]
    | cons c rest =>
      cases f with
      | zero => simp [parseGo]
      | succ f' =>
        have hlc : (c :: rest).length = rest.length + 1 := rfl
        rw [parseGo]
        cases hA : parseAck (c :: rest) with
        | none =>
          simp only
          by_cases hb : resync (c :: rest) = c :: rest
          · rw [if_pos hb]; simp
          · rw [if_neg hb]
            have hlt := resync_ne_lt c rest hb
            exact ih _ _ _ (by omega) fun x hx => hh x (resync_subset _ hx)
        | some p =>
          obtain ⟨ack, rest1⟩ := p
          have hr := parseAck_some _ _ _ hA
          have hhex1 : ∀ x ∈ rest1, (hexDigitVal x).isSome = true := by
            intro x hx
            rw [hr.2] at hx
            exact hh x (List.drop_subset _ _ hx)
          simp only
          rcases hm : parseMsgs rest1 with ⟨ms, rest2, e⟩
          have hlen1 : rest1.length = (c :: rest).length - 18 := by
            rw [hr.2, List.length_drop]
          have hlen2 : rest2.length ≤ rest1.length := by
            have := parseMsgs_length rest1
            rw [hm] at this
            exact this
          have hhex2 : ∀ x ∈ rest2, (hexDigitVal x).isSome = true := by
            intro x hx
            refine hhex1 x ?_
            have := parseMsgsF_subset rest1.length rest1
            rw [show parseMsgsF rest1.length rest1 = parseMsgs rest1 from rfl, hm] at this
            exact this hx
          cases e with
          | parseErr => exact ih _ _ _ (by omega) hhex2
          | exhausted => exact ih _ _ _ (by omega) hhex2
          | valErr =>
            exfalso
            have hnv := parseMsgsF_no_valErr rest1.length rest1 hhex1
            rw [show parseMsgsF rest1.length rest1 = parseMsgs rest1 from rfl, hm] at hnv
            exact hnv rfl

/-- Claim C1: for a buffer of one well-formed Ack header followed by a partial
Message frame (fewer than 22 remaining hex characters), the claim says `parse`
returns a sequence containing that Ack.  The code instead discards the pending
Ack when the inner message loop ends in `BufferExhausted` (the
`except BufferExhausted: pass` branch at lines 92-93 never appends it), so the
parse of `0262AABBCC0F110006` followed by the 10-character partial message
`0250111111` terminates normally but returns the empty sequence. -/
theorem c1_truncated_message_drops_ack :
    parse (chars ("0262AABBCC0F1100060250111111")) = Except.ok [] := rfl

/-- Claim C3: the claim (and the specification's own worked example) says the
18-character buffer `0262AABBCC0F110006` — one well-formed Ack, zero
messages — parses to exactly one Ack record.  The code returns the empty
sequence: after the Ack header is read the message loop immediately raises
`BufferExhausted` on the empty remainder, and that handler drops the Ack. -/
theorem c3_single_ack_eval :
    parse (chars ("0262AABBCC0F110006")) = Except.ok [] := rfl

/-- Claim C2: for one well-formed Ack followed by two well-formed 22-character
Message frames, the claim says the Ack's response list holds both messages.
`_parse_msg` reads 22 characters of fields but advances the buffer by only 20
(`buff = buff[20:]`, line 141), so after the first message the parser is
misaligned by two characters and the second frame's flag test fails: the
result is one Ack holding only the first message. -/
theorem c2_second_message_lost :
    parse (chars ("0262AAAAAA0F110006" ++ "0250111111222222001122" ++
        "0250333333444444001133")) =
      Except.ok [{ device := chars ("AAAAAA"), flags := chars ("0F"),
                   command := Cmd.on,
                   response := [{ from_ := chars ("111111"), to_ := chars ("222222"),
                                  flags := chars ("00"), status := Status.val 34,
                                  type := MType.on }] }] := rfl

/-- Claim C6: the claim says the on-command encoder produces two-digit hex for
cmd2, in particular `00` for level 0.  The code uses
`hex(level).replace('0x', '').upper()` with no zero padding: level 255 does
encode as `FF`, but level 0 encodes as the single digit `0` (and the whole
command string then has odd length 15, a malformed fixed-width frame). -/
theorem c6_level_zero_unpadded :
    device_on_cmd2 255 = chars ("FF") ∧ device_on_cmd2 0 = chars ("0") ∧
      (device_on_msg (chars ("AABBCC")) 0).length = 15 := by decide

/-- Claim C4, counterexample: for the buffer `0262AABBCC0F110006` followed by
23 filler characters, `parse` yields one Ack with an empty response list; a
first subscribe cycle delivers that Ack record itself to the callback, while
the claim's flattening of all `Ack.response` lists predicts an empty event
sequence.  The delivered events are therefore not the flattened Message
events. -/
theorem c4_counterexample :
    deliveredFirstCycle 60 [0] (chars ("0262AABBCC0F110006" ++
        "00000000000000000000000")) ≠
      flattenedMessages (chars ("0262AABBCC0F110006" ++
        "00000000000000000000000")) := by decide

/-- Claim C5: the parse loop terminates on every finite input buffer.  In the
fuel semantics: for any fuel exceeding the buffer length the fuel-indexed
loop has already stabilized to the value of `parse`, and `parse` never
reports fuel exhaustion — each iteration either strictly shrinks the buffer
(an Ack consumes 18 characters, resynchronization strictly advances) or stops
when the resynchronization makes no progress. -/
theorem c5_parse_terminates (buff : List Char) (fuel : Nat) (h : buff.length < fuel) :
    parseGo fuel buff [] = parse buff ∧ parse buff ≠ Except.error PErr.outOfFuel := by
  constructor
  · exact parseGo_congr buff.length buff fuel (buff.length + 1) [] (Nat.le_refl _) h
      (Nat.lt_succ_self _)
  · exact parseGo_no_outOfFuel buff.length buff (buff.length + 1) [] (Nat.le_refl _)
      (Nat.lt_succ_self _)

theorem c5_parse_terminates_witness :
    parseGo 10 (chars ("ZZZZ")) [] = parse (chars ("ZZZZ")) ∧
      parse (chars ("ZZZZ")) ≠ Except.error PErr.outOfFuel :=
  c5_parse_terminates (chars ("ZZZZ")) 10 (by decide)

/-- Claim C9: on any input buffer of hexadecimal characters — the RawBuffer
data type of the protocol — `parse` never raises an exception to its caller:
the `BufferParsingError` and `BufferExhausted` control flow is absorbed
internally (resynchronization, end-of-data) and the only uncaught exception
in `parse`, the `ValueError` of `int(_, 16)`, cannot fire on hex digits, so
the parse always returns a (possibly empty or partial) list of Acks. -/
theorem c9_no_uncaught_exception (buff : List Char)
    (h : ∀ c ∈ buff, (hexDigitVal c).isSome = true) :
    ∃ acks, parse buff = Except.ok acks := by
  cases hp : parse buff with
  | ok l => exact ⟨l, rfl⟩
  | error e =>
    exfalso
    cases e with
    | valueError =>
      exact parseGo_no_valueError_of_hex buff.length buff (buff.length + 1) []
        (Nat.le_refl _) h hp
    | outOfFuel =>
      exact parseGo_no_outOfFuel buff.length buff (buff.length + 1) []
        (Nat.le_refl _) (Nat.lt_succ_self _) hp

theorem lowerStr_length (s : List Char) : (lowerStr s).length = s.length :=
  List.length_map _ _

theorem ackReads_split (p i f c1 c2 rest : List Char)
    (hp : p.length = 4) (hi : i.length = 6) (hf : f.length = 2)
    (h1 : c1.length = 2) (h2 : c2.length = 2) :
    ackReads (p ++ (i ++ (f ++ (c1 ++ (c2 ++ rest))))) =
      { pass_through := p, id := i, flags := f, cmd1 := c1, cmd2 := c2,
        ack := rest.take 2 } := by
  have d4 : (p ++ (i ++ (f ++ (c1 ++ (c2 ++ rest))))).drop 4 =
      i ++ (f ++ (c1 ++ (c2 ++ rest))) := List.drop_left' hp
  have d10 : (p ++ (i ++ (f ++ (c1 ++ (c2 ++ rest))))).drop 10 =
      f ++ (c1 ++ (c2 ++ rest)) := by
    rw [show (10 : Nat) = p.length + 6 from by omega, List.drop_append]
    exact List.drop_left' hi
  have d12 : (p ++ (i ++ (f ++ (c1 ++ (c2 ++ rest))))).drop 12 =
      c1 ++ (c2 ++ rest) := by
    rw [show (12 : Nat) = p.length + 8 from by omega, List.drop_append,
        show (8 : Nat) = i.length + 2 from by omega, List.drop_append]
    exact List.drop_left' hf
  have d14 : (p ++ (i ++ (f ++ (c1 ++ (c2 ++ rest))))).drop 14 = c2 ++ rest := by
    rw [show (14 : Nat) = p.length + 10 from by omega, List.drop_append,
        show (10 : Nat) = i.length + 4 from by omega, List.drop_append,
        show (4 : Nat) = f.length + 2 from by omega, List.drop_append]
    exact List.drop_left' h1
  have d16 : (p ++ (i ++ (f ++ (c1 ++ (c2 ++ rest))))).drop 16 = rest := by
    rw [show (16 : Nat) = p.length + 12 from by omega, List.drop_append,
        show (12 : Nat) = i.length + 6 from by omega, List.drop_append,
        show (6 : Nat) = f.length + 4 from by omega, List.drop_append,
        show (4 : Nat) = c1.length + 2 from by omega, List.drop_append]
    exact List.drop_left' h2
  simp only [ackReads, AckReads.mk.injEq, d4, d10, d12, d14, d16]
  exact ⟨List.take_left' hp, List.take_left' hi, List.take_left' hf,
    List.take_left' h1, List.take_left' h2, trivial⟩

/-- Claim C7: round-trip of the address and command fields.  For any encoded
command `('0262' + device_id + flags + cmd1 + cmd2).lower()` followed by the
acknowledgement byte `06`, `_parse_ack` succeeds on the resulting hub
response, and the header fields it reads back are exactly the (lower-cased)
`device_id`, `cmd1` and `cmd2` that were encoded. -/
theorem c7_command_ack_roundtrip (device_id cmd1 cmd2 flags : List Char)
    (hid : device_id.length = 6) (hfl : flags.length = 2)
    (hc1 : cmd1.length = 2) (hc2 : cmd2.length = 2) :
    (ackReads (commandMsg device_id cmd1 cmd2 flags ++ chars ("06"))).id
        = lowerStr device_id ∧
      (ackReads (commandMsg device_id cmd1 cmd2 flags ++ chars ("06"))).cmd1
        = lowerStr cmd1 ∧
      (ackReads (commandMsg device_id cmd1 cmd2 flags ++ chars ("06"))).cmd2
        = lowerStr cmd2 ∧
      (parseAck (commandMsg device_id cmd1 cmd2 flags ++ chars ("06"))).isSome
        = true := by
  have hmsg : commandMsg device_id cmd1 cmd2 flags ++ chars ("06") =
      chars ("0262") ++ (lowerStr device_id ++ (lowerStr flags ++ (lowerStr cmd1 ++
        (lowerStr cmd2 ++ chars ("06"))))) := by
    rw [commandMsg]
    simp only [lowerStr, List.map_append]
    rw [show List.map lowerChar (chars ("0262")) = chars ("0262") from by decide]
    simp [List.append_assoc]
  have hsplit := ackReads_split (chars ("0262")) (lowerStr device_id)
    (lowerStr flags) (lowerStr cmd1) (lowerStr cmd2) (chars ("06"))
    (by decide) (by rw [lowerStr_length, hid]) (by rw [lowerStr_length, hfl])
    (by rw [lowerStr_length, hc1]) (by rw [lowerStr_length, hc2])
  rw [hmsg]
  refine ⟨by rw [hsplit], by rw [hsplit], by rw [hsplit], ?_⟩
  rw [parseAck, hsplit]
  simp
  decide

theorem c7_command_ack_roundtrip_witness :
    (ackReads (commandMsg (chars ("AABBCC")) (chars ("11")) (chars ("00"))
        (chars ("0F")) ++ chars ("06"))).id = lowerStr (chars ("AABBCC")) ∧
      (ackReads (commandMsg (chars ("AABBCC")) (chars ("11")) (chars ("00"))
        (chars ("0F")) ++ chars ("06"))).cmd1 = lowerStr (chars ("11")) ∧
      (ackReads (commandMsg (chars ("AABBCC")) (chars ("11")) (chars ("00"))
        (chars ("0F")) ++ chars ("06"))).cmd2 = lowerStr (chars ("00")) ∧
      (parseAck (commandMsg (chars ("AABBCC")) (chars ("11")) (chars ("00"))
        (chars ("0F")) ++ chars ("06"))).isSome = true :=
  c7_command_ack_roundtrip (chars ("AABBCC")) (chars ("11")) (chars ("00"))
    (chars ("0F")) (by decide) (by decide) (by decide) (by decide)

theorem c9_no_uncaught_exception_witness :
    ∃ acks, parse (chars ("0262AABBCC0F11000602501111112222220011FF0"))
      = Except.ok acks :=
  c9_no_uncaught_exception (chars ("0262AABBCC0F11000602501111112222220011FF0"))
    (by decide)

/-- Claim C8: the time-to-live dedup window of the subscribe loop.  An event
observed a second time within `status_ttl` time units of its first
observation is delivered exactly once; observed again more than `status_ttl`
after the first observation, it is delivered a second time. -/
theorem c8_dedup_ttl_window (status_ttl t0 t1 : Int) (a : Ack) :
    (t1 - t0 ≤ status_ttl →
      (subscribeCycle status_ttl [(t0, a), (t1, a)] []).1 = [a]) ∧
    (status_ttl < t1 - t0 →
      (subscribeCycle status_ttl [(t0, a), (t1, a)] []).1 = [a, a]) := by
  constructor
  · intro h
    have hn : ¬ status_ttl < t1 - t0 := not_lt.mpr h
    simp [subscribeCycle, lookupT, hn]
  · intro h
    simp [subscribeCycle, lookupT, h]

theorem c8_dedup_ttl_window_witness :
    (subscribeCycle 60 [((0 : Int), sampleAck), ((30 : Int), sampleAck)] []).1
        = [sampleAck] ∧
      (subscribeCycle 60 [((0 : Int), sampleAck), ((100 : Int), sampleAck)] []).1
        = [sampleAck, sampleAck] :=
  ⟨(c8_dedup_ttl_window 60 0 30 sampleAck).1 (by decide),
   (c8_dedup_ttl_window 60 0 100 sampleAck).2 (by decide)⟩

theorem subscribeCycle_suppressed (status_ttl : Int) (a : Ack) :
    ∀ (ts : List Int) (tprev : Int) (recent : List (Ack × Int)),
      lookupT recent a = some tprev →
      List.Chain' (fun x y => y - x ≤ status_ttl) (tprev :: ts) →
      (subscribeCycle status_ttl (ts.map fun t => (t, a)) recent).1 = [] := by
  intro ts
  induction ts with
  | nil => intro tprev recent _ _; rfl
  | cons t ts ih =>
    intro tprev recent hl hc
    have hgap : t - tprev ≤ status_ttl := (List.chain'_cons.mp hc).1
    have hres := ih t ((a, t) :: recent)
      (by rw [lookupT, if_pos rfl]) (List.chain'_cons.mp hc).2
    simp only [List.map_cons, subscribeCycle, hl]
    rw [if_neg]
    · exact hres
    · simp only [decide_eq_true_eq]
      omega

/-- Claim C10: the last-seen timestamp of a fingerprint is refreshed on every
observation, delivered or suppressed, so a message observed repeatedly with
every gap between consecutive observations at most `status_ttl` is delivered
only at its first observation, however much total time elapses. -/
theorem c10_refresh_suppression (status_ttl : Int) (a : Ack) (t0 : Int)
    (ts : List Int)
    (hchain : List.Chain' (fun x y => y - x ≤ status_ttl) (t0 :: ts)) :
    (subscribeCycle status_ttl ((t0 :: ts).map fun t => (t, a)) []).1 = [a] := by
  have hres := subscribeCycle_suppressed status_ttl a ts t0 [(a, t0)]
    (by rw [lookupT, if_pos rfl]) hchain
  simp only [List.map_cons, subscribeCycle, lookupT]
  simp [hres]

theorem c10_refresh_suppression_witness :
    (subscribeCycle 60 (((0 : Int) :: [50, 100, 150]).map fun t =>
        (t, sampleAck)) []).1 = [sampleAck] :=
  c10_refresh_suppression 60 sampleAck 0 [50, 100, 150]
    (by norm_num [List.chain'_cons])

theorem subscribeCycle_sublist (status_ttl : Int) :
    ∀ (obs : List (Int × Ack)) (recent : List (Ack × Int)),
      List.Sublist (subscribeCycle status_ttl obs recent).1 (obs.map Prod.snd) := by
  intro obs
  induction obs with
  | nil => intro recent; exact List.Sublist.refl _
  | cons p rest ih =>
    intro recent
    obtain ⟨now, a⟩ := p
    simp only [subscribeCycle, List.map_cons]
    split
    · exact List.Sublist.cons₂ a (ih _)
    · exact List.Sublist.cons a (ih _)

theorem subscribeCycle_all_fresh (status_ttl : Int) :
    ∀ (obs : List (Int × Ack)) (recent : List (Ack × Int)),
      (obs.map Prod.snd).Nodup →
      (∀ p ∈ obs, lookupT recent p.2 = none) →
      (subscribeCycle status_ttl obs recent).1 = obs.map Prod.snd := by
  intro obs
  induction obs with
  | nil => intro recent _ _; rfl
  | cons p rest ih =>
    intro recent hnd hfresh
    obtain ⟨now, a⟩ := p
    have ha : lookupT recent a = none := hfresh (now, a) (List.mem_cons_self _ _)
    have hnd' : a ∉ rest.map Prod.snd ∧ (rest.map Prod.snd).Nodup :=
      List.nodup_cons.mp (by simpa using hnd)
    have hrest : ∀ q ∈ rest, lookupT ((a, now) :: recent) q.2 = none := by
      intro q hq
      rw [lookupT, if_neg, hfresh q (List.mem_cons_of_mem _ hq)]
      intro he
      exact hnd'.1 (he ▸ List.mem_map_of_mem Prod.snd hq)
    simp only [subscribeCycle, List.map_cons, ha]
    rw [ih ((a, now) :: recent) hnd'.2 hrest]
    simp

/-- Claim C4 (amended): the values the subscribe loop delivers to the callback
in one cycle are drawn, in order, from the Ack records returned by parsing the
polled buffer — the code iterates over the Ack records themselves (line 167),
not over flattened `Ack.response` lists — and a cycle starting from a fresh
dedup table with pairwise-distinct Acks delivers exactly the parsed Ack
records; the subscriber never receives anything other than successfully
decoded Ack records. -/
theorem c4_subscribe_delivers_acks (status_ttl : Int) (buff : List Char)
    (times : List Int) (recent : List (Ack × Int))
    (hlen : times.length = (parsedAcks buff).length) :
    List.Sublist (subscribeCycle status_ttl (times.zip (parsedAcks buff)) recent).1
        (parsedAcks buff) ∧
      ((parsedAcks buff).Nodup →
        (∀ a ∈ parsedAcks buff, lookupT recent a = none) →
        (subscribeCycle status_ttl (times.zip (parsedAcks buff)) recent).1
          = parsedAcks buff) := by
  have hmap : (times.zip (parsedAcks buff)).map Prod.snd = parsedAcks buff :=
    List.map_snd_zip _ _ (le_of_eq hlen.symm)
  constructor
  · have hs := subscribeCycle_sublist status_ttl (times.zip (parsedAcks buff)) recent
    rwa [hmap] at hs
  · intro hnd hfresh
    have hall := subscribeCycle_all_fresh status_ttl (times.zip (parsedAcks buff))
      recent (by rwa [hmap])
      (fun p hp => hfresh p.2 (by rw [← hmap]; exact List.mem_map_of_mem Prod.snd hp))
    rwa [hmap] at hall

theorem c4_subscribe_delivers_acks_witness :
    List.Sublist (subscribeCycle 60 (([0] : List Int).zip
        (parsedAcks (chars ("0262AABBCC0F110006" ++ "00000000000000000000000")))) []).1
        (parsedAcks (chars ("0262AABBCC0F110006" ++ "00000000000000000000000"))) ∧
      ((parsedAcks (chars ("0262AABBCC0F110006" ++ "00000000000000000000000"))).Nodup →
        (∀ a ∈ parsedAcks (chars ("0262AABBCC0F110006" ++ "00000000000000000000000")),
          lookupT [] a = none) →
        (subscribeCycle 60 (([0] : List Int).zip
          (parsedAcks (chars ("0262AABBCC0F110006" ++ "00000000000000000000000")))) []).1
          = parsedAcks (chars ("0262AABBCC0F110006" ++ "00000000000000000000000"))) :=
  c4_subscribe_delivers_acks 60
    (chars ("0262AABBCC0F110006" ++ "00000000000000000000000")) [0] [] (by decide)

end Insteon
